import Mathlib

/-!
# Porthos RPC client (`client/client.go`)

A shallow embedding of the client: the pending call handle (`Response`), the
correlation token derived from the handle's storage address, the routing of a
delivery to a handle (`processResponse`), and the two publishing operations
(`Call`, `CallVoid`).

Conventions.
* Go code that can end by a runtime panic or block for ever returns an `Outcome`.
* A Go string holding raw bytes (the correlation id) and a `[]byte` are both a list of
  byte values; `string(b)` and `[]byte(s)` are the identity on that list.
* The Go heap is a map from addresses to the `Response` stored there; a `*Response` is
  its address.
* The broker is an external collaborator: every call made to it is appended to a trace,
  and the error it returns is given by the client's channel.
* `out` is unbuffered: a send completes only when a goroutine is receiving from the channel.
  Whether one is, when a send is reached, is an input of the operation (`receiving`).
* `log.Success` and `log.Info` only print and are left out.
-/

namespace Porthos

/-! ## Outcomes -/

/-- Raw bytes: the content of a `[]byte` or of a Go string. -/
abbrev Bytes := List Nat

/-- How a piece of Go code ends: it returns, it panics, or the goroutine blocks for ever. -/
inductive Outcome (α : Type) where
  | ok (a : α) : Outcome α
  | panic (msg : String) : Outcome α
  | blocked : Outcome α
  deriving DecidableEq, Repr

/-! ## Channels and mutexes (Go runtime) -/

/-- An unbuffered `chan []byte` as seen by its senders: the payloads handed to receivers so
far (oldest first) and the number of `close` statements executed on it. -/
structure Chan where
  sent : List Bytes
  closes : Nat
  deriving DecidableEq, Repr

/-- The result of `make(chan []byte)`. -/
def Chan.make : Chan := { sent := [], closes := 0 }

/-- Whether the channel has been closed. -/
def Chan.isClosed (c : Chan) : Bool := decide (0 < c.closes)

/-- The statement `c <- b` on an unbuffered channel: sending on a closed channel panics;
on an open one the send completes when a goroutine is receiving from `c` (`receiving`), and
blocks otherwise. -/
def Chan.send (c : Chan) (b : Bytes) (receiving : Bool) : Outcome Chan :=
  if c.isClosed then .panic "send on closed channel"
  else if receiving then .ok { c with sent := c.sent ++ [b] }
  else .blocked

/-- The statement `close(c)`: closing a closed channel panics. -/
def Chan.close (c : Chan) : Outcome Chan :=
  if c.isClosed then .panic "close of closed channel"
  else .ok { c with closes := c.closes + 1 }

/-- A `sync.Mutex`. -/
structure Mutex where
  locked : Bool
  deriving DecidableEq, Repr

/-! ## Response (client.go lines 14-18, 29-44) -/

/-- The struct `Response`: `out chan []byte`, `closed bool`, `mutex *sync.Mutex`. -/
structure Response where
  out : Chan
  closed : Bool
  mutex : Mutex
  deriving DecidableEq, Repr

/-- The value built by `makeNewResponse`:
`Response{make(chan []byte), false, new(sync.Mutex)}`. -/
def Response.new : Response :=
  { out := Chan.make, closed := false, mutex := { locked := false } }

/-- `Response.Out` (lines 33-35): the receiving end of `out`. -/
def Response.Out (r : Response) : Chan := r.out

/-- `Response.Dispose` (lines 37-44), run without interruption:
lock; `if !r.closed { r.closed = true; close(r.out) }`; deferred unlock. -/
def Response.Dispose (r : Response) : Outcome Response :=
  if r.mutex.locked then .blocked
  else
    let r1 := { r with mutex := { locked := true } }
    if !r1.closed then
      let r2 := { r1 with closed := true }
      match r2.out.close with
      | .ok out => .ok { r2 with out := out, mutex := { locked := false } }
      | .panic msg => .panic msg
      | .blocked => .blocked
    else .ok { r1 with mutex := { locked := false } }

/-- The guarded send of `processResponse` (lines 113-119), run without interruption:
lock; `if !res.closed { res.out <- body }`; deferred unlock. `receiving` tells whether a
goroutine is receiving from `out` when the send is reached; without one the send blocks,
the mutex still held. -/
def Response.Deliver (r : Response) (body : Bytes) (receiving : Bool) : Outcome Response :=
  if r.mutex.locked then .blocked
  else
    let r1 := { r with mutex := { locked := true } }
    if !r1.closed then
      match r1.out.send body receiving with
      | .ok out => .ok { r1 with out := out, mutex := { locked := false } }
      | .panic msg => .panic msg
      | .blocked => .blocked
    else .ok { r1 with mutex := { locked := false } }

/-- One completed step applied to a pending call: a Deliver whose payload, if sent, is
taken by a receiver, or a Dispose. -/
inductive Op where
  | deliver (body : Bytes) : Op
  | dispose : Op
  deriving DecidableEq, Repr

/-- Apply one step. -/
def Response.apply (r : Response) : Op → Outcome Response
  | .deliver body => r.Deliver body true
  | .dispose => r.Dispose

/-- Apply a finite sequence of steps, stopping at the first one that does not return. -/
def Response.run (r : Response) : List Op → Outcome Response
  | [] => .ok r
  | op :: ops =>
    match r.apply op with
    | .ok r1 => r1.run ops
    | .panic msg => .panic msg
    | .blocked => .blocked

/-- The states a Response is in between two operations: the mutex is free, the flag
`closed` tells whether `out` is closed, and `out` was closed at most once. -/
def Response.Consistent (r : Response) : Prop :=
  r.mutex.locked = false ∧ r.closed = r.out.isClosed ∧ r.out.closes ≤ 1

/-! ## Correlation tokens (lines 29-31, 182-192) -/

/-- Number of bytes of a `uintptr`. -/
def wordSize : Nat := 8

/-- The `n` low bytes of `u`, least significant first. -/
def toBytesLE : Nat → Nat → Bytes
  | 0, _ => []
  | n + 1, u => (u % 256) :: toBytesLE n (u / 256)

/-- The number whose bytes, least significant first, are given. -/
def fromBytesLE : Bytes → Nat
  | [] => 0
  | b :: bs => b + 256 * fromBytesLE bs

/-- Modelled from the spec: `message.UintptrToBytes` is not among the sources. The spec says
the token is derived from the storage address of the pending call and that the token bytes
are later reinterpreted as a raw address: the token is the bytes of the address word. -/
def UintptrToBytes (u : Nat) : Bytes := toBytesLE wordSize u

/-- Modelled from the spec: `message.BytesToUintptr` is not among the sources. The bytes of a
token are reinterpreted as an address word; bytes that do not fill a word have no such
reading. -/
def BytesToUintptr (b : Bytes) : Option Nat :=
  if b.length < wordSize then none else some (fromBytesLE (b.take wordSize))

/-- `Response.getCorrelationID` (lines 29-31): the bytes of the address of `r`, as a string. -/
def getCorrelationID (r : Nat) : Bytes := UintptrToBytes r

/-- `Client.unmarshallCorrelationID` (lines 190-192). -/
def unmarshallCorrelationID (correlationID : Bytes) : Option Nat :=
  BytesToUintptr correlationID

/-- `Client.getResponse` (lines 182-184): the address is cast to a `*Response`. -/
def getResponse (address : Nat) : Nat := address

/-! ## Broker, heap and client (lines 20-27) -/

/-- The fields of `amqp.Publishing` the client sets; a field left out in the source holds the
empty string. -/
structure Publishing where
  Expiration : String
  ContentType : String
  CorrelationId : Bytes
  ReplyTo : String
  Body : Bytes
  deriving DecidableEq, Repr

/-- The arguments of one `channel.Publish` call. -/
structure PublishCall where
  exchange : String
  key : String
  mandatory : Bool
  immediate : Bool
  msg : Publishing
  deriving DecidableEq, Repr

/-- The fields of `amqp.Delivery` the client reads. -/
structure Delivery where
  CorrelationId : Bytes
  Body : Bytes
  RoutingKey : String
  deriving DecidableEq, Repr

/-- A call made to the broker. -/
inductive BrokerEvent where
  | publish (call : PublishCall) : BrokerEvent
  | ack (d : Delivery) (multiple : Bool) : BrokerEvent
  deriving DecidableEq, Repr

/-- The state outside the client value: the Go heap holding the Responses, and the trace of
calls made to the broker. -/
structure World where
  heap : Nat → Option Response
  broker : List BrokerEvent

/-- The `amqp.Channel` of the client: the error `Publish` returns (`none` is `nil`), given the
calls made so far and the call itself. -/
structure Channel where
  Publish : List BrokerEvent → PublishCall → Option String

/-- The `amqp.Queue` of the replies. -/
structure Queue where
  Name : String
  deriving DecidableEq, Repr

/-- The struct `Client`; `deliveryChannel` is the stream `start` reads, passed to `start` as
the list of its deliveries. -/
structure Client where
  serviceName : String
  defaultTTL : Int
  channel : Channel
  responseQueue : Queue

/-- The struct `message.MessageBody{method, args}` handed to `json.Marshal`. -/
structure MessageBody (V : Type) where
  Method : String
  Args : List V

/-- The function `strconv.FormatInt(i, base)`, for a base from two to sixteen. -/
def FormatInt (i : Int) (base : Nat) : String :=
  if i < 0 then "-" ++ String.mk (Nat.toDigits base i.natAbs)
  else String.mk (Nat.toDigits base i.toNat)

/-- An address the allocator may return for a new object: not nil, a machine word, and not the
address of an object in the heap. -/
def World.Fresh (w : World) (addr : Nat) : Prop :=
  addr ≠ 0 ∧ addr < 2 ^ 64 ∧ w.heap addr = none

/-- `Client.makeNewResponse` (lines 186-188): `&Response{...}`, stored at the address `addr`
chosen by the allocator. -/
def Client.makeNewResponse (_c : Client) (w : World) (addr : Nat) : World × Nat :=
  ({ w with heap := Function.update w.heap addr (some Response.new) }, addr)

/-- Go runtime: the garbage collector reclaims the object at `addr` once no pointer reaches
it; a `uintptr` or a correlation token holding the address is not a pointer. -/
def World.collect (w : World) (addr : Nat) : World :=
  { w with heap := Function.update w.heap addr none }

/-- `Client.processResponse` (lines 104-120): ack, decode the correlation id into an address,
cast it to a `*Response`, and run the guarded send on what is stored there. Dereferencing an
address that holds no Response (nil in particular) is a runtime fault, and so is decoding a
correlation id that does not fill an address word. `receiving` tells whether a goroutine is
receiving from the output of that Response when the send is reached. When the guarded send
blocks, the mutex of the Response is held: by this goroutine at the send, or by another one
at the `Lock`. -/
def Client.processResponse (_c : Client) (w : World) (d : Delivery) (receiving : Bool) :
    World × Outcome Unit :=
  let w1 : World := { w with broker := w.broker ++ [.ack d false] }
  match unmarshallCorrelationID d.CorrelationId with
  | none => (w1, .panic "index out of range")
  | some address =>
    let res := getResponse address
    match w1.heap res with
    | none => (w1, .panic "invalid memory address or nil pointer dereference")
    | some r =>
      match r.Deliver d.Body receiving with
      | .ok r1 => ({ w1 with heap := Function.update w1.heap res (some r1) }, .ok ())
      | .panic msg => (w1, .panic msg)
      | .blocked =>
        ({ w1 with heap :=
            Function.update w1.heap res (some { r with mutex := { locked := true } }) },
         .blocked)

/-- `Client.start` (lines 96-102): the loop `for d := range c.deliveryChannel`, which ends
when the stream ends and stops at a delivery whose processing does not return. Each
delivery comes with the `receiving` input of its `processResponse`. -/
def Client.start (c : Client) (w : World) : List (Delivery × Bool) → World × Outcome Unit
  | [] => (w, .ok ())
  | (d, receiving) :: ds =>
    match c.processResponse w d receiving with
    | (w1, .ok _) => c.start w1 ds
    | (w1, .panic msg) => (w1, .panic msg)
    | (w1, .blocked) => (w1, .blocked)

/-- `Client.Call` (lines 122-152); `marshal` is `json.Marshal` and `addr` the address the
allocator gives the new Response. -/
def Client.Call {V : Type} (marshal : MessageBody V → Except String Bytes) (c : Client)
    (w : World) (addr : Nat) (method : String) (args : List V) : World × Outcome Nat :=
  match marshal { Method := method, Args := args } with
  | .error err => (w, .panic err)
  | .ok body =>
    let (w1, res) := c.makeNewResponse w addr
    let correlationID := getCorrelationID res
    let call : PublishCall :=
      { exchange := "", key := c.serviceName, mandatory := false, immediate := false,
        msg := { Expiration := FormatInt c.defaultTTL 10,
                 ContentType := "application/json",
                 CorrelationId := correlationID,
                 ReplyTo := c.responseQueue.Name,
                 Body := body } }
    let w2 : World := { w1 with broker := w1.broker ++ [.publish call] }
    match c.channel.Publish w1.broker call with
    | some err => (w2, .panic err)
    | none => (w2, .ok res)

/-- `Client.CallVoid` (lines 155-175). -/
def Client.CallVoid {V : Type} (marshal : MessageBody V → Except String Bytes) (c : Client)
    (w : World) (method : String) (args : List V) : World × Outcome Unit :=
  match marshal { Method := method, Args := args } with
  | .error err => (w, .panic err)
  | .ok body =>
    let call : PublishCall :=
      { exchange := "", key := c.serviceName, mandatory := false, immediate := false,
        msg := { Expiration := "",
                 ContentType := "application/json",
                 CorrelationId := [],
                 ReplyTo := "",
                 Body := body } }
    let w1 : World := { w with broker := w.broker ++ [.publish call] }
    match c.channel.Publish w.broker call with
    | some err => (w1, .panic err)
    | none => (w1, .ok ())

/-- The bodies of the requests published in a trace, oldest first. -/
def publishedBodies : List BrokerEvent → List Bytes
  | [] => []
  | .publish call :: evs => call.msg.Body :: publishedBodies evs
  | .ack _ _ :: evs => publishedBodies evs

/-- The statement `res.Dispose()` made by the caller holding the pointer `res`. -/
def World.Dispose (w : World) (res : Nat) : World × Outcome Unit :=
  match w.heap res with
  | none => (w, .panic "invalid memory address or nil pointer dereference")
  | some r =>
    match r.Dispose with
    | .ok r1 => ({ w with heap := Function.update w.heap res (some r1) }, .ok ())
    | .panic msg => (w, .panic msg)
    | .blocked => (w, .blocked)

/-- The state at program start: no Response allocated, nothing sent to the broker. -/
def World.empty : World := { heap := fun _ => none, broker := [] }

/-- Every object of the heap lies at a machine-word address and is a Response between two
operations. -/
def World.Sound (w : World) : Prop :=
  ∀ a r, w.heap a = some r → a < 2 ^ 64 ∧ r.Consistent

/-! ## Runs of the client program -/

/-- One event of a run: a `Call` (with the address the allocator gives its Response), or the
collector reclaiming the object at an address. -/
inductive Step (V : Type) where
  | call (addr : Nat) (method : String) (args : List V) : Step V
  | collect (addr : Nat) : Step V

/-- Whether the event is a `Call`. -/
def Step.isCall {V : Type} : Step V → Bool
  | .call _ _ _ => true
  | .collect _ => false

/-- Run a sequence of events; the second component lists the correlation tokens of the
Responses the calls returned, oldest first. A call that panics returns no Response. -/
def Client.runSteps {V : Type} (marshal : MessageBody V → Except String Bytes) (c : Client) :
    World → List (Step V) → World × List Bytes
  | w, [] => (w, [])
  | w, .call addr method args :: rest =>
    match c.Call marshal w addr method args with
    | (w1, .ok res) =>
      ((c.runSteps marshal w1 rest).1, getCorrelationID res :: (c.runSteps marshal w1 rest).2)
    | (w1, _) => c.runSteps marshal w1 rest
  | w, .collect addr :: rest => c.runSteps marshal (w.collect addr) rest

/-- Every `Call` of the run gets an address that is fresh when it is made. -/
def Client.ValidAllocs {V : Type} (marshal : MessageBody V → Except String Bytes)
    (c : Client) : World → List (Step V) → Prop
  | _, [] => True
  | w, .call addr method args :: rest =>
    w.Fresh addr ∧ c.ValidAllocs marshal (c.Call marshal w addr method args).1 rest
  | w, .collect addr :: rest => c.ValidAllocs marshal (w.collect addr) rest

/-! ## Deliver and Dispose as two goroutines -/

/-- Program points of the guarded send (lines 113-119): before `res.mutex.Lock()`, before
the test of `res.closed`, before `res.out <- d.Body`, before the deferred unlock, returned. -/
inductive DeliverPc where
  | lock : DeliverPc
  | test : DeliverPc
  | send : DeliverPc
  | unlock : DeliverPc
  | done : DeliverPc
  deriving DecidableEq, Repr

/-- Program points of `Dispose` (lines 37-44): before `r.mutex.Lock()`, before the test of
`r.closed`, before `r.closed = true`, before `close(r.out)`, before the deferred unlock,
returned. -/
inductive DisposePc where
  | lock : DisposePc
  | test : DisposePc
  | setClosed : DisposePc
  | close : DisposePc
  | unlock : DisposePc
  | done : DisposePc
  deriving DecidableEq, Repr

/-- The two goroutines: the dispatch loop running the guarded send, the caller running
`Dispose`. -/
inductive Actor where
  | dispatcher : Actor
  | caller : Actor
  deriving DecidableEq, Repr

/-- The shared Response, the payload being delivered, whether a goroutine is receiving from
`out`, the two program points, and the runtime panic raised, if any. -/
structure Race where
  res : Response
  body : Bytes
  receiver : Bool
  deliver : DeliverPc
  dispose : DisposePc
  fault : Option String
  deriving DecidableEq, Repr

/-- Both goroutines about to start on a Response fresh from `makeNewResponse`. -/
def Race.init (body : Bytes) (receiver : Bool) : Race :=
  { res := Response.new, body := body, receiver := receiver,
    deliver := .lock, dispose := .lock, fault := none }

/-- One statement of the guarded send; `none` when the goroutine cannot move. `out` is
unbuffered: the send completes only when a goroutine is receiving. -/
def Race.stepDeliver (s : Race) : Option Race :=
  match s.deliver with
  | .lock =>
    if s.res.mutex.locked then none
    else some { s with res := { s.res with mutex := { locked := true } }, deliver := .test }
  | .test => some { s with deliver := if !s.res.closed then .send else .unlock }
  | .send =>
    match s.res.out.send s.body s.receiver with
    | .panic msg => some { s with fault := some msg, deliver := .done }
    | .blocked => none
    | .ok out =>
      some { s with res := { s.res with out := out }, receiver := false, deliver := .unlock }
  | .unlock =>
    some { s with res := { s.res with mutex := { locked := false } }, deliver := .done }
  | .done => none

/-- One statement of `Dispose`; `none` when the goroutine cannot move. -/
def Race.stepDispose (s : Race) : Option Race :=
  match s.dispose with
  | .lock =>
    if s.res.mutex.locked then none
    else some { s with res := { s.res with mutex := { locked := true } }, dispose := .test }
  | .test => some { s with dispose := if !s.res.closed then .setClosed else .unlock }
  | .setClosed => some { s with res := { s.res with closed := true }, dispose := .close }
  | .close =>
    match s.res.out.close with
    | .panic msg => some { s with fault := some msg, dispose := .done }
    | .blocked => none
    | .ok out => some { s with res := { s.res with out := out }, dispose := .unlock }
  | .unlock =>
    some { s with res := { s.res with mutex := { locked := false } }, dispose := .done }
  | .done => none

/-- One statement of the chosen goroutine; nothing moves after a runtime panic. -/
def Race.step (s : Race) (a : Actor) : Option Race :=
  if s.fault.isSome then none
  else
    match a with
    | .dispatcher => s.stepDeliver
    | .caller => s.stepDispose

/-- Run a schedule; choosing a goroutine that cannot move leaves the state as it is. -/
def Race.run (s : Race) : List Actor → Race
  | [] => s
  | a :: rest =>
    match s.step a with
    | some s1 => s1.run rest
    | none => s.run rest

/-- The invariant of the race: the mutex is held by at most one goroutine, the guarded send
is reached only while the Response is open, and `out` is closed only by `Dispose`. -/
def Race.Inv (s : Race) : Prop :=
  s.fault = none ∧
  (s.res.mutex.locked = true ↔
    ((s.deliver = .test ∨ s.deliver = .send ∨ s.deliver = .unlock) ∨
     (s.dispose = .test ∨ s.dispose = .setClosed ∨ s.dispose = .close ∨
      s.dispose = .unlock))) ∧
  ¬ ((s.deliver = .test ∨ s.deliver = .send ∨ s.deliver = .unlock) ∧
     (s.dispose = .test ∨ s.dispose = .setClosed ∨ s.dispose = .close ∨
      s.dispose = .unlock)) ∧
  (s.deliver = .send → s.res.closed = false) ∧
  (s.res.out.isClosed = true → s.res.closed = true) ∧
  (s.dispose = .setClosed → s.res.closed = false) ∧
  (s.dispose = .close → s.res.closed = true ∧ s.res.out.isClosed = false) ∧
  ((s.dispose = .lock ∨ s.dispose = .test) → s.res.closed = s.res.out.isClosed)

/-! ## A concrete client, for evaluating the definitions -/

/-- A stand-in for `json.Marshal` on numeric arguments: the characters of the method name,
then the arguments; it rejects an argument that is not a byte. -/
def Example.marshal (m : MessageBody Nat) : Except String Bytes :=
  if m.Args.all (fun v => decide (v < 256)) then .ok (m.Method.toList.map Char.toNat ++ m.Args)
  else .error "json: unsupported value"

/-- A client whose broker accepts every publish. -/
def Example.client : Client :=
  { serviceName := "adder", defaultTTL := 3000,
    channel := { Publish := fun _ _ => none },
    responseQueue := { Name := "amq.gen-1" } }

/-- A client whose broker channel is closed: every publish returns an error. -/
def Example.brokenClient : Client :=
  { serviceName := "adder", defaultTTL := 3000,
    channel := { Publish := fun _ _ => some "channel/connection is not open" },
    responseQueue := { Name := "amq.gen-1" } }

/-- The state after `Call("add", 2, 3)` at program start, the Response stored at 4096. -/
def Example.pending : World :=
  (Example.client.Call Example.marshal World.empty 4096 "add" [2, 3]).1

/-- A delivery carrying the token of the Response stored at 4096. -/
def Example.reply (body : Bytes) : Delivery :=
  { CorrelationId := getCorrelationID 4096, Body := body, RoutingKey := "amq.gen-1" }

/-- A delivery whose correlation id is eight zero bytes: the nil address. -/
def Example.stray : Delivery :=
  { CorrelationId := [0, 0, 0, 0, 0, 0, 0, 0], Body := [53], RoutingKey := "amq.gen-1" }

/-! ## Lemmas on the Response state machine -/

theorem Response.new_consistent : Response.new.Consistent := by
  simp [Response.Consistent, Response.new, Chan.make, Chan.isClosed]

theorem Response.Dispose_open (r : Response) (h : r.Consistent) (ho : r.closed = false) :
    r.Dispose = .ok { out := { sent := r.out.sent, closes := 1 }, closed := true,
                      mutex := { locked := false } } := by
  obtain ⟨hl, hc, hn⟩ := h
  have h0 : r.out.closes = 0 := by
    rw [ho] at hc
    simp [Chan.isClosed] at hc
    omega
  simp [Response.Dispose, hl, ho, Chan.close, Chan.isClosed, h0]

theorem Response.Dispose_closed (r : Response) (h : r.Consistent) (hc : r.closed = true) :
    r.Dispose = .ok r := by
  obtain ⟨hl, -, -⟩ := h
  cases r with
  | mk out closed mutex =>
    cases mutex with
    | mk locked =>
      simp only at hl hc
      subst hl hc
      simp [Response.Dispose]

theorem Response.Deliver_open (r : Response) (h : r.Consistent) (ho : r.closed = false)
    (body : Bytes) :
    r.Deliver body true =
      .ok { r with out := { r.out with sent := r.out.sent ++ [body] } } := by
  obtain ⟨hl, hc, hn⟩ := h
  have h0 : r.out.isClosed = false := by rw [← hc, ho]
  cases r with
  | mk out closed mutex =>
    cases mutex with
    | mk locked =>
      simp only at hl ho h0
      subst hl ho
      simp [Response.Deliver, Chan.send, h0]

theorem Response.Deliver_closed (r : Response) (h : r.Consistent) (hc : r.closed = true)
    (body : Bytes) (receiving : Bool) : r.Deliver body receiving = .ok r := by
  obtain ⟨hl, -, -⟩ := h
  cases r with
  | mk out closed mutex =>
    cases mutex with
    | mk locked =>
      simp only at hl hc
      subst hl hc
      simp [Response.Deliver]


theorem Response.Deliver_open_consistent (r : Response) (h : r.Consistent)
    (body : Bytes) :
    ({ r with out := { r.out with sent := r.out.sent ++ [body] } } : Response).Consistent := by
  obtain ⟨hl, hc, hn⟩ := h
  exact ⟨hl, by simpa [Chan.isClosed] using hc, hn⟩

theorem Response.open_closes (r : Response) (h : r.Consistent) (ho : r.closed = false) :
    r.out.closes = 0 := by
  obtain ⟨-, hc, -⟩ := h
  rw [ho] at hc
  simp [Chan.isClosed] at hc
  omega

theorem Response.closed_closes (r : Response) (h : r.Consistent) (hc : r.closed = true) :
    r.out.closes = 1 := by
  obtain ⟨-, he, hn⟩ := h
  rw [hc] at he
  simp [Chan.isClosed] at he
  omega

theorem Response.run_closed (r : Response) (h : r.Consistent) (hc : r.closed = true)
    (ops : List Op) : r.run ops = .ok r := by
  induction ops with
  | nil => rfl
  | cons op ops ih =>
    cases op with
    | deliver body =>
      simp [Response.run, Response.apply, Response.Deliver_closed r h hc body true, ih]
    | dispose => simp [Response.run, Response.apply, Response.Dispose_closed r h hc, ih]

theorem Response.run_append (r : Response) (ops1 ops2 : List Op) :
    r.run (ops1 ++ ops2) =
      match r.run ops1 with
      | .ok r1 => r1.run ops2
      | .panic msg => .panic msg
      | .blocked => .blocked := by
  induction ops1 generalizing r with
  | nil => rfl
  | cons op ops ih =>
    simp only [List.cons_append, Response.run]
    cases hop : r.apply op with
    | ok r1 => simpa using ih r1
    | panic msg => rfl
    | blocked => rfl

theorem Response.run_open (ops : List Op) :
    ∀ r : Response, r.Consistent → r.closed = false →
      ∃ r1, r.run ops = .ok r1 ∧ r1.Consistent ∧
        r1.closed = decide (Op.dispose ∈ ops) ∧
        r1.out.closes = (if Op.dispose ∈ ops then 1 else 0) := by
  induction ops with
  | nil =>
    intro r h ho
    exact ⟨r, rfl, h, by simpa using ho, by simpa using Response.open_closes r h ho⟩
  | cons op ops ih =>
    intro r h ho
    cases op with
    | deliver body =>
      obtain ⟨r1, h1, h2, h3, h4⟩ :=
        ih _ (Response.Deliver_open_consistent r h body) ho
      refine ⟨r1, ?_, h2, ?_, ?_⟩
      · simp [Response.run, Response.apply, Response.Deliver_open r h ho, h1]
      · simpa using h3
      · simpa using h4
    | dispose =>
      have hd := Response.Dispose_open r h ho
      have hcons : Response.Consistent
          { out := { sent := r.out.sent, closes := 1 }, closed := true,
            mutex := { locked := false } } := by
        simp [Response.Consistent, Chan.isClosed]
      refine ⟨_, ?_, hcons, ?_, ?_⟩
      · simp only [Response.run, Response.apply, hd]
        exact Response.run_closed _ hcons rfl ops
      · simp
      · simp

theorem Response.run_consistent (ops : List Op) (r : Response) (h : r.Consistent) :
    ∃ r1, r.run ops = .ok r1 ∧ r1.Consistent ∧ (r.closed = true → r1 = r) := by
  cases hc : r.closed with
  | true => exact ⟨r, Response.run_closed r h hc ops, h, fun _ => rfl⟩
  | false =>
    obtain ⟨r1, h1, h2, -, -⟩ := Response.run_open ops r h hc
    exact ⟨r1, h1, h2, fun hf => by simp at hf⟩

/-! ## The pending call state machine (C2, C3) -/

/-- C2. For a Response created by `makeNewResponse` and every finite sequence of Deliver and
Dispose steps (each payload sent being taken by a receiver): the sequence runs to its end
without panic; the flag `closed` is true at the end exactly when the sequence holds a
Dispose; `out` has then been closed exactly once, and never otherwise; and at every point of
the sequence where `closed` is true, the rest of the sequence leaves `closed` true and
writes no payload to `out` (nor closes it again). -/
theorem Response.lifecycle_invariant (ops : List Op) :
    ∃ r, Response.new.run ops = .ok r ∧
      r.closed = decide (Op.dispose ∈ ops) ∧
      r.out.closes = (if Op.dispose ∈ ops then 1 else 0) ∧
      ∀ ops1 ops2, ops = ops1 ++ ops2 →
        ∃ r1, Response.new.run ops1 = .ok r1 ∧ r1.run ops2 = .ok r ∧
          (r1.closed = true → r.closed = true ∧ r.out = r1.out) := by
  obtain ⟨r, h1, -, h3, h4⟩ := Response.run_open ops Response.new Response.new_consistent rfl
  refine ⟨r, h1, h3, h4, ?_⟩
  intro ops1 ops2 hsplit
  obtain ⟨r1, g1, g2, -⟩ := Response.run_consistent ops1 Response.new Response.new_consistent
  obtain ⟨r2, k1, -, k3⟩ := Response.run_consistent ops2 r1 g2
  have hrun := Response.run_append Response.new ops1 ops2
  rw [← hsplit, h1, g1] at hrun
  simp only [k1] at hrun
  have hr : r = r2 := by
    injection hrun
  subst hr
  refine ⟨r1, g1, k1, ?_⟩
  intro hc
  have := k3 hc
  subst this
  exact ⟨hc, rfl⟩

/-- C3. In every state a Response reaches (after any sequence of Deliver and Dispose steps
from `makeNewResponse`), Dispose returns a state with `closed` true whose `out` was closed
exactly once; a second Dispose returns that same state without panic; and Dispose changes
neither the payloads sent on `out` nor the mutex. -/
theorem Response.Dispose_idempotent (ops : List Op) :
    ∃ s s1, Response.new.run ops = .ok s ∧ s.Dispose = .ok s1 ∧ s1.Dispose = .ok s1 ∧
      s1.closed = true ∧ s1.out.closes = 1 ∧
      s1.out.sent = s.out.sent ∧ s1.mutex = s.mutex := by
  obtain ⟨s, h1, h2, -⟩ := Response.run_consistent ops Response.new Response.new_consistent
  cases hc : s.closed with
  | true =>
    exact ⟨s, s, h1, Response.Dispose_closed s h2 hc, Response.Dispose_closed s h2 hc, hc,
      Response.closed_closes s h2 hc, rfl, rfl⟩
  | false =>
    have hcons : Response.Consistent
        { out := { sent := s.out.sent, closes := 1 }, closed := true,
          mutex := { locked := false } } := by
      simp [Response.Consistent, Chan.isClosed]
    refine ⟨s, _, h1, Response.Dispose_open s h2 hc, Response.Dispose_closed _ hcons rfl,
      rfl, rfl, rfl, ?_⟩
    obtain ⟨hl, -, -⟩ := h2
    cases s with
    | mk out closed mutex =>
      cases mutex with
      | mk locked =>
        simp only at hl
        subst hl
        rfl

/-! ## Correlation tokens -/

theorem toBytesLE_length (n u : Nat) : (toBytesLE n u).length = n := by
  induction n generalizing u with
  | zero => rfl
  | succ n ih => simp [toBytesLE, ih]

theorem fromBytesLE_toBytesLE (n u : Nat) : fromBytesLE (toBytesLE n u) = u % 256 ^ n := by
  induction n generalizing u with
  | zero => simp [toBytesLE, fromBytesLE, Nat.mod_one]
  | succ n ih =>
    simp only [toBytesLE, fromBytesLE, ih]
    rw [pow_succ, Nat.mul_comm (256 ^ n) 256, Nat.mod_mul]

theorem BytesToUintptr_UintptrToBytes (u : Nat) (hu : u < 2 ^ 64) :
    BytesToUintptr (UintptrToBytes u) = some u := by
  have hlen : (toBytesLE wordSize u).length = wordSize := toBytesLE_length wordSize u
  have htake : (toBytesLE wordSize u).take wordSize = toBytesLE wordSize u := by
    rw [List.take_of_length_le (le_of_eq hlen)]
  have hmod : u % 256 ^ wordSize = u := Nat.mod_eq_of_lt (by simpa [wordSize] using hu)
  simp only [BytesToUintptr, UintptrToBytes, hlen, lt_irrefl, if_false, htake,
    fromBytesLE_toBytesLE, hmod]

theorem getCorrelationID_injOn (a b : Nat) (ha : a < 2 ^ 64) (hb : b < 2 ^ 64)
    (h : getCorrelationID a = getCorrelationID b) : a = b := by
  have h1 := BytesToUintptr_UintptrToBytes a ha
  have h2 := BytesToUintptr_UintptrToBytes b hb
  simp only [getCorrelationID] at h
  rw [h, h2] at h1
  exact (Option.some.inj h1).symm

/-! ## Routing of a delivery -/

theorem Response.Deliver_blocked (r : Response) (h : r.Consistent) (ho : r.closed = false)
    (body : Bytes) : r.Deliver body false = .blocked := by
  obtain ⟨hl, hc, hn⟩ := h
  have h0 : r.out.isClosed = false := by rw [← hc, ho]
  simp [Response.Deliver, hl, ho, Chan.send, h0]

theorem Client.processResponse_at (c : Client) (w : World) (a : Nat) (r : Response)
    (d : Delivery) (receiving : Bool) (ha : a < 2 ^ 64) (hr : w.heap a = some r)
    (hd : d.CorrelationId = getCorrelationID a) :
    c.processResponse w d receiving =
      match r.Deliver d.Body receiving with
      | .ok r1 => ({ heap := Function.update w.heap a (some r1),
                     broker := w.broker ++ [.ack d false] }, .ok ())
      | .panic msg => ({ w with broker := w.broker ++ [.ack d false] }, .panic msg)
      | .blocked =>
        ({ heap := Function.update w.heap a (some { r with mutex := { locked := true } }),
           broker := w.broker ++ [.ack d false] }, .blocked) := by
  have hdec : unmarshallCorrelationID d.CorrelationId = some a := by
    rw [hd]
    exact BytesToUintptr_UintptrToBytes a ha
  simp only [Client.processResponse, hdec, getResponse, hr]

theorem Client.processResponse_open (c : Client) (w : World) (a : Nat) (r : Response)
    (d : Delivery) (hw : w.Sound) (hr : w.heap a = some r) (ho : r.closed = false)
    (hd : d.CorrelationId = getCorrelationID a) :
    c.processResponse w d true =
      ({ heap := Function.update w.heap a
            (some { r with out := { r.out with sent := r.out.sent ++ [d.Body] } }),
         broker := w.broker ++ [.ack d false] }, .ok ()) := by
  obtain ⟨ha, hcons⟩ := hw a r hr
  rw [Client.processResponse_at c w a r d true ha hr hd, Response.Deliver_open r hcons ho]

theorem Client.processResponse_closed (c : Client) (w : World) (a : Nat) (r : Response)
    (d : Delivery) (receiving : Bool) (hw : w.Sound) (hr : w.heap a = some r)
    (hc : r.closed = true) (hd : d.CorrelationId = getCorrelationID a) :
    c.processResponse w d receiving =
      ({ w with broker := w.broker ++ [.ack d false] }, .ok ()) := by
  obtain ⟨ha, hcons⟩ := hw a r hr
  rw [Client.processResponse_at c w a r d receiving ha hr hd,
    Response.Deliver_closed r hcons hc]
  simp only [← hr, Function.update_eq_self]

theorem Client.processResponse_blocks (c : Client) (w : World) (a : Nat) (r : Response)
    (d : Delivery) (hw : w.Sound) (hr : w.heap a = some r) (ho : r.closed = false)
    (hd : d.CorrelationId = getCorrelationID a) :
    c.processResponse w d false =
      ({ heap := Function.update w.heap a (some { r with mutex := { locked := true } }),
         broker := w.broker ++ [.ack d false] }, .blocked) := by
  obtain ⟨ha, hcons⟩ := hw a r hr
  rw [Client.processResponse_at c w a r d false ha hr hd,
    Response.Deliver_blocked r hcons ho]

theorem World.Sound_update (w : World) (hw : w.Sound) (a : Nat) (r : Response)
    (ha : a < 2 ^ 64) (hr : r.Consistent) (evs : List BrokerEvent) :
    World.Sound { heap := Function.update w.heap a (some r), broker := evs } := by
  intro b rb hb
  by_cases hab : b = a
  · subst hab
    simp only [Function.update_same, Option.some.injEq] at hb
    subst hb
    exact ⟨ha, hr⟩
  · simp only [Function.update_noteq hab] at hb
    exact hw b rb hb

theorem World.empty_sound : World.empty.Sound := by
  intro a r h
  simp [World.empty] at h

theorem Client.Call_world {V : Type} (marshal : MessageBody V → Except String Bytes)
    (c : Client) (w : World) (addr : Nat) (method : String) (args : List V) (body : Bytes)
    (hm : marshal { Method := method, Args := args } = .ok body) :
    (c.Call marshal w addr method args).1 =
      { heap := Function.update w.heap addr (some Response.new),
        broker := w.broker ++ [.publish
          { exchange := "", key := c.serviceName, mandatory := false, immediate := false,
            msg := { Expiration := FormatInt c.defaultTTL 10,
                     ContentType := "application/json",
                     CorrelationId := getCorrelationID addr,
                     ReplyTo := c.responseQueue.Name,
                     Body := body } }] } := by
  simp only [Client.Call, hm, Client.makeNewResponse]
  split <;> rfl

theorem Client.Call_world_error {V : Type} (marshal : MessageBody V → Except String Bytes)
    (c : Client) (w : World) (addr : Nat) (method : String) (args : List V) (err : String)
    (hm : marshal { Method := method, Args := args } = .error err) :
    c.Call marshal w addr method args = (w, .panic err) := by
  simp only [Client.Call, hm]

theorem Client.Call_sound {V : Type} (marshal : MessageBody V → Except String Bytes)
    (c : Client) (w : World) (addr : Nat) (method : String) (args : List V)
    (hw : w.Sound) (ha : addr < 2 ^ 64) : (c.Call marshal w addr method args).1.Sound := by
  cases hm : marshal { Method := method, Args := args } with
  | error err => rw [Client.Call_world_error marshal c w addr method args err hm]; exact hw
  | ok body =>
    rw [Client.Call_world marshal c w addr method args body hm]
    exact World.Sound_update w hw addr Response.new ha Response.new_consistent _

theorem Example.pending_sound : Example.pending.Sound :=
  Client.Call_sound Example.marshal Example.client World.empty 4096 "add" [2, 3]
    World.empty_sound (by norm_num)

/-- C1, as stated, fails, in two ways. (1) A `Call` returns a Response stored at 4096; it is
never disposed, its caller drops it and the collector reclaims it; a second `Call` is given
the same address and publishes the same token. The reply to the first call then lands on
the output of the Response of the second call. (2) On a Response fresh from `Call`, still
held and open, with no goroutine receiving from its output, `processResponse` does not send
the body: it blocks at the send, the mutex held, the output empty. -/
theorem Client.processResponse_misroutes_or_blocks :
    Example.client.ValidAllocs Example.marshal World.empty
      [.call 4096 "add" [2, 3], .collect 4096, .call 4096 "add" [4, 5]] ∧
    (Example.client.runSteps Example.marshal World.empty
      [.call 4096 "add" [2, 3], .collect 4096]).1.heap 4096 = none ∧
    (Example.client.runSteps Example.marshal World.empty
      [.call 4096 "add" [2, 3], .collect 4096, .call 4096 "add" [4, 5]]).2 =
      [(Example.reply [53]).CorrelationId, (Example.reply [53]).CorrelationId] ∧
    (Example.client.processResponse
      (Example.client.runSteps Example.marshal World.empty
        [.call 4096 "add" [2, 3], .collect 4096, .call 4096 "add" [4, 5]]).1
      (Example.reply [53]) true).1.heap 4096 =
      some { out := { sent := [[53]], closes := 0 }, closed := false,
             mutex := { locked := false } } ∧
    Example.pending.heap 4096 = some Response.new ∧
    (Example.client.processResponse Example.pending (Example.reply [53]) false).2 =
      .blocked ∧
    (Example.client.processResponse Example.pending (Example.reply [53]) false).1.heap 4096 =
      some { out := { sent := [], closes := 0 }, closed := false,
             mutex := { locked := true } } := by
  refine ⟨⟨⟨by decide, by decide, by decide⟩, ⟨by decide, by decide, by decide⟩, trivial⟩,
    by decide, by decide, by decide, by decide, by decide, by decide⟩

/-- C1, amended. Let `r` be a Response that is still stored in the heap at address `a` (its
caller holds it, it has not been reclaimed) and is open, and `d` a delivery whose
correlation id is the token of `r`. Then decoding the correlation id and casting it gives
back the pointer to `r`; and when a goroutine is receiving from the output of `r`,
`processResponse` returns, appends `d.Body` to the payloads sent on the output of `r`,
changing nothing else of `r`, and leaves every other Response of the heap as it was. -/
theorem Client.processResponse_routes (c : Client) (w : World) (a : Nat) (r : Response)
    (d : Delivery) (hw : w.Sound) (hr : w.heap a = some r) (ho : r.closed = false)
    (hd : d.CorrelationId = getCorrelationID a) :
    (unmarshallCorrelationID d.CorrelationId).map getResponse = some a ∧
    (c.processResponse w d true).2 = .ok () ∧
    (c.processResponse w d true).1.heap a =
      some { r with out := { r.out with sent := r.out.sent ++ [d.Body] } } ∧
    ∀ b, b ≠ a → (c.processResponse w d true).1.heap b = w.heap b := by
  rw [Client.processResponse_open c w a r d hw hr ho hd]
  refine ⟨?_, rfl, ?_, ?_⟩
  · rw [hd]
    simp [unmarshallCorrelationID, getCorrelationID,
      BytesToUintptr_UintptrToBytes a (hw a r hr).1, getResponse]
  · simp
  · intro b hb
    simp [Function.update_noteq hb]

theorem Client.processResponse_routes_witness :
    Example.pending.Sound ∧ Example.pending.heap 4096 = some Response.new ∧
    Response.new.closed = false ∧
    (Example.reply [53]).CorrelationId = getCorrelationID 4096 ∧
    (Example.client.processResponse Example.pending (Example.reply [53]) true).2 = .ok () ∧
    (Example.client.processResponse Example.pending (Example.reply [53]) true).1.heap 4096 =
      some { out := { sent := [[53]], closes := 0 }, closed := false,
             mutex := { locked := false } } :=
  ⟨Example.pending_sound, by decide, rfl, rfl,
   (Client.processResponse_routes Example.client Example.pending 4096 Response.new
      (Example.reply [53]) Example.pending_sound (by decide) rfl rfl).2.1,
   (Client.processResponse_routes Example.client Example.pending 4096 Response.new
      (Example.reply [53]) Example.pending_sound (by decide) rfl rfl).2.2.1⟩

/-! ## Two deliveries for one token (C4) -/

/-- C4, as stated, fails: after `Call("add", 2, 3)`, two deliveries carrying the token of the
returned Response are processed in turn with no Dispose in between, a receiver taking each
payload; both calls return, and the second one is no no-op: it sends its body on the output
too, which has then received both payloads. -/
theorem Client.processResponse_second_delivery_sends :
    (Example.client.processResponse Example.pending (Example.reply [53]) true).2 = .ok () ∧
    (Example.client.processResponse
      (Example.client.processResponse Example.pending (Example.reply [53]) true).1
      (Example.reply [54]) true).2 = .ok () ∧
    ((Example.client.processResponse Example.pending (Example.reply [53]) true).1.heap
      4096).map (fun r => r.out.sent) = some [[53]] ∧
    ((Example.client.processResponse
      (Example.client.processResponse Example.pending (Example.reply [53]) true).1
      (Example.reply [54]) true).1.heap 4096).map (fun r => r.out.sent) =
      some [[53], [54]] := by
  decide

/-- C4, amended. For an open Response `r` stored at `a` and two deliveries `d1`, `d2`
carrying the token of `r`, processed in turn with no Dispose in between, a receiver taking
each payload: both calls return without panic; each sends its body on the output of `r`
exactly once, `d1.Body` first; `r` stays open; and every other Response of the heap is left
as it was. -/
theorem Client.processResponse_twice (c : Client) (w : World) (a : Nat) (r : Response)
    (d1 d2 : Delivery) (hw : w.Sound) (hr : w.heap a = some r) (ho : r.closed = false)
    (h1 : d1.CorrelationId = getCorrelationID a)
    (h2 : d2.CorrelationId = getCorrelationID a) :
    (c.processResponse w d1 true).2 = .ok () ∧
    (c.processResponse (c.processResponse w d1 true).1 d2 true).2 = .ok () ∧
    (c.processResponse (c.processResponse w d1 true).1 d2 true).1.heap a =
      some { r with out := { r.out with sent := r.out.sent ++ [d1.Body, d2.Body] } } ∧
    ∀ b, b ≠ a →
      (c.processResponse (c.processResponse w d1 true).1 d2 true).1.heap b = w.heap b := by
  obtain ⟨ha, hcons⟩ := hw a r hr
  have e1 := Client.processResponse_open c w a r d1 hw hr ho h1
  rw [e1]
  have hw1 := World.Sound_update w hw a _ ha
    (Response.Deliver_open_consistent r hcons d1.Body) (w.broker ++ [.ack d1 false])
  have e2 := Client.processResponse_open c _ a
    { r with out := { r.out with sent := r.out.sent ++ [d1.Body] } } d2 hw1 (by simp) ho h2
  rw [e2]
  refine ⟨rfl, rfl, ?_, ?_⟩
  · simp
  · intro b hb
    simp [Function.update_noteq hb]

theorem Client.processResponse_twice_witness :
    Example.pending.Sound ∧ Example.pending.heap 4096 = some Response.new ∧
    Response.new.closed = false ∧
    (Example.client.processResponse
      (Example.client.processResponse Example.pending (Example.reply [53]) true).1
      (Example.reply [54]) true).1.heap 4096 =
      some { out := { sent := [[53], [54]], closes := 0 }, closed := false,
             mutex := { locked := false } } :=
  ⟨Example.pending_sound, by decide, rfl,
   (Client.processResponse_twice Example.client Example.pending 4096 Response.new
      (Example.reply [53]) (Example.reply [54]) Example.pending_sound (by decide) rfl rfl
      rfl).2.2.1⟩

/-! ## Deliveries that match no open Response (C8) -/

/-- C8, as stated, fails: with one Response pending at 4096, a delivery whose correlation id
is eight zero bytes carries the token of no pending Response, and `processResponse` does
not drop it: the id decodes to the nil address and the guarded send dereferences it,
whether or not a goroutine is receiving anywhere. -/
theorem Client.processResponse_stray_faults :
    Example.stray.CorrelationId ≠ getCorrelationID 4096 ∧
    unmarshallCorrelationID Example.stray.CorrelationId = some 0 ∧
    Example.pending.heap 0 = none ∧
    (Example.client.processResponse Example.pending Example.stray true).2 =
      .panic "invalid memory address or nil pointer dereference" ∧
    (Example.client.processResponse Example.pending Example.stray false).2 =
      .panic "invalid memory address or nil pointer dereference" := by
  decide

/-- C8, amended. For a delivery whose correlation id is the token of a Response that is
still stored in the heap and has been disposed (`closed` is true), `processResponse` drops
the delivery, whether or not a goroutine is receiving: it returns without panic, and the
heap, hence the flag and the output of every Response, is unchanged (the delivery is
acknowledged to the broker). -/
theorem Client.processResponse_disposed_drops (c : Client) (w : World) (a : Nat)
    (r : Response) (d : Delivery) (receiving : Bool) (hw : w.Sound)
    (hr : w.heap a = some r) (hc : r.closed = true)
    (hd : d.CorrelationId = getCorrelationID a) :
    (c.processResponse w d receiving).2 = .ok () ∧
    (c.processResponse w d receiving).1.heap = w.heap ∧
    (c.processResponse w d receiving).1.broker = w.broker ++ [.ack d false] := by
  rw [Client.processResponse_closed c w a r d receiving hw hr hc hd]
  exact ⟨rfl, rfl, rfl⟩

theorem World.Dispose_sound (w : World) (hw : w.Sound) (res : Nat) :
    (w.Dispose res).1.Sound := by
  unfold World.Dispose
  cases hr : w.heap res with
  | none => exact hw
  | some r =>
    obtain ⟨ha, hcons⟩ := hw res r hr
    cases hc : r.closed with
    | true =>
      simp only [Response.Dispose_closed r hcons hc]
      exact World.Sound_update w hw res r ha hcons _
    | false =>
      simp only [Response.Dispose_open r hcons hc]
      exact World.Sound_update w hw res _ ha (by simp [Response.Consistent, Chan.isClosed]) _

theorem Client.processResponse_disposed_drops_witness :
    (Example.pending.Dispose 4096).1.Sound ∧
    (Example.pending.Dispose 4096).1.heap 4096 =
      some { out := { sent := [], closes := 1 }, closed := true,
             mutex := { locked := false } } ∧
    (Example.client.processResponse (Example.pending.Dispose 4096).1
      (Example.reply [53]) false).2 = .ok () ∧
    (Example.client.processResponse (Example.pending.Dispose 4096).1
      (Example.reply [53]) false).1.heap = (Example.pending.Dispose 4096).1.heap :=
  ⟨World.Dispose_sound _ Example.pending_sound 4096, by decide,
   (Client.processResponse_disposed_drops Example.client (Example.pending.Dispose 4096).1 4096
      { out := { sent := [], closes := 1 }, closed := true, mutex := { locked := false } }
      (Example.reply [53]) false (World.Dispose_sound _ Example.pending_sound 4096)
      (by decide) rfl rfl).1,
   (Client.processResponse_disposed_drops Example.client (Example.pending.Dispose 4096).1 4096
      { out := { sent := [], closes := 1 }, closed := true, mutex := { locked := false } }
      (Example.reply [53]) false (World.Dispose_sound _ Example.pending_sound 4096)
      (by decide) rfl rfl).2.1⟩

/-! ## The published envelopes (C5, C6, C7) -/

theorem FormatInt_ten (i : Int) : FormatInt i 10 = toString i := by
  cases i with
  | ofNat n =>
    have h : ¬ ((Int.ofNat n) < 0) := by simp
    simp only [FormatInt, h, if_false]
    rfl
  | negSucc n =>
    have h : (Int.negSucc n) < 0 := Int.negSucc_lt_zero n
    simp only [FormatInt, h, if_true]
    rfl

/-- C5. When serialization gives `body` and the broker accepts the publish, `Call` returns a
pointer `res` and makes exactly one call to the broker, a publish with exchange `""`,
routing key `c.serviceName`, content type `"application/json"`, `Expiration` the decimal
string of `c.defaultTTL`, `ReplyTo` the name of the reply queue, body `body`, and
`CorrelationId` the token of `res`; the Response stored at `res` is open, with nothing sent
on its output and its output not closed. -/
theorem Client.Call_envelope {V : Type} (marshal : MessageBody V → Except String Bytes)
    (c : Client) (w : World) (addr : Nat) (method : String) (args : List V) (body : Bytes)
    (hm : marshal { Method := method, Args := args } = .ok body)
    (hp : c.channel.Publish w.broker
      { exchange := "", key := c.serviceName, mandatory := false, immediate := false,
        msg := { Expiration := FormatInt c.defaultTTL 10,
                 ContentType := "application/json",
                 CorrelationId := getCorrelationID addr,
                 ReplyTo := c.responseQueue.Name,
                 Body := body } } = none) :
    ∃ res call,
      (c.Call marshal w addr method args).2 = .ok res ∧
      (c.Call marshal w addr method args).1.broker = w.broker ++ [.publish call] ∧
      call.exchange = "" ∧ call.key = c.serviceName ∧
      call.msg.ContentType = "application/json" ∧
      call.msg.Expiration = toString c.defaultTTL ∧
      call.msg.ReplyTo = c.responseQueue.Name ∧
      call.msg.Body = body ∧
      call.msg.CorrelationId = getCorrelationID res ∧
      (c.Call marshal w addr method args).1.heap res =
        some { out := { sent := [], closes := 0 }, closed := false,
               mutex := { locked := false } } := by
  refine ⟨addr,
    { exchange := "", key := c.serviceName, mandatory := false, immediate := false,
      msg := { Expiration := FormatInt c.defaultTTL 10,
               ContentType := "application/json",
               CorrelationId := getCorrelationID addr,
               ReplyTo := c.responseQueue.Name,
               Body := body } },
    ?_, ?_, rfl, rfl, rfl, FormatInt_ten c.defaultTTL, rfl, rfl, rfl, ?_⟩
  · simp only [Client.Call, hm, Client.makeNewResponse, hp]
  · rw [Client.Call_world marshal c w addr method args body hm]
  · rw [Client.Call_world marshal c w addr method args body hm]
    simp [Response.new, Chan.make]

theorem Client.Call_envelope_witness :
    Example.marshal { Method := "add", Args := [2, 3] } = .ok [97, 100, 100, 2, 3] ∧
    (Example.client.Call Example.marshal World.empty 4096 "add" [2, 3]).2 = .ok 4096 ∧
    ∃ res call,
      (Example.client.Call Example.marshal World.empty 4096 "add" [2, 3]).2 = .ok res ∧
      (Example.client.Call Example.marshal World.empty 4096 "add" [2, 3]).1.broker =
        World.empty.broker ++ [.publish call] ∧
      call.exchange = "" ∧ call.key = Example.client.serviceName ∧
      call.msg.ContentType = "application/json" ∧
      call.msg.Expiration = toString Example.client.defaultTTL ∧
      call.msg.ReplyTo = Example.client.responseQueue.Name ∧
      call.msg.Body = [97, 100, 100, 2, 3] ∧
      call.msg.CorrelationId = getCorrelationID res ∧
      (Example.client.Call Example.marshal World.empty 4096 "add" [2, 3]).1.heap res =
        some { out := { sent := [], closes := 0 }, closed := false,
               mutex := { locked := false } } :=
  ⟨rfl, by decide,
   Client.Call_envelope Example.marshal Example.client World.empty 4096 "add" [2, 3]
     [97, 100, 100, 2, 3] rfl rfl⟩

theorem publishedBodies_append (evs1 evs2 : List BrokerEvent) :
    publishedBodies (evs1 ++ evs2) = publishedBodies evs1 ++ publishedBodies evs2 := by
  induction evs1 with
  | nil => rfl
  | cons ev evs ih =>
    cases ev with
    | publish call => simp [publishedBodies, ih]
    | ack d multiple => simp [publishedBodies, ih]

/-- C6. When serialization gives `body`, `CallVoid` makes exactly one call to the broker, a
publish with routing key `c.serviceName` (exchange `""`, content type
`"application/json"`), with empty `CorrelationId`, empty `ReplyTo` and empty `Expiration`,
and with body `body`, which is the body `Call` publishes for the same method and arguments;
the heap is unchanged, so no Response is created; and `CallVoid` returns when the broker
accepts that publish. -/
theorem Client.CallVoid_envelope {V : Type} (marshal : MessageBody V → Except String Bytes)
    (c : Client) (w : World) (method : String) (args : List V) (body : Bytes)
    (hm : marshal { Method := method, Args := args } = .ok body) :
    ∃ call,
      (c.CallVoid marshal w method args).1.broker = w.broker ++ [.publish call] ∧
      call.exchange = "" ∧ call.key = c.serviceName ∧
      call.msg.ContentType = "application/json" ∧
      call.msg.CorrelationId = [] ∧ call.msg.ReplyTo = "" ∧ call.msg.Expiration = "" ∧
      call.msg.Body = body ∧
      (∀ addr, publishedBodies (c.Call marshal w addr method args).1.broker =
        publishedBodies (c.CallVoid marshal w method args).1.broker) ∧
      (c.CallVoid marshal w method args).1.heap = w.heap ∧
      (c.channel.Publish w.broker call = none →
        (c.CallVoid marshal w method args).2 = .ok ()) := by
  have hworld : (c.CallVoid marshal w method args).1 =
      { heap := w.heap,
        broker := w.broker ++ [.publish
          { exchange := "", key := c.serviceName, mandatory := false, immediate := false,
            msg := { Expiration := "", ContentType := "application/json",
                     CorrelationId := [], ReplyTo := "", Body := body } }] } := by
    simp only [Client.CallVoid, hm]
    split <;> rfl
  refine ⟨{ exchange := "", key := c.serviceName, mandatory := false, immediate := false,
            msg := { Expiration := "", ContentType := "application/json",
                     CorrelationId := [], ReplyTo := "", Body := body } },
    by rw [hworld], rfl, rfl, rfl, rfl, rfl, rfl, rfl, ?_, by rw [hworld], ?_⟩
  · intro addr
    rw [hworld, Client.Call_world marshal c w addr method args body hm]
    simp [publishedBodies_append, publishedBodies]
  · intro hp
    simp only [Client.CallVoid, hm, hp]

theorem Client.CallVoid_envelope_witness :
    Example.marshal { Method := "log", Args := [104, 105] } = .ok [108, 111, 103, 104, 105] ∧
    (Example.client.CallVoid Example.marshal Example.pending "log" [104, 105]).2 = .ok () ∧
    ∃ call,
      (Example.client.CallVoid Example.marshal Example.pending "log" [104, 105]).1.broker =
        Example.pending.broker ++ [.publish call] ∧
      call.exchange = "" ∧ call.key = Example.client.serviceName ∧
      call.msg.ContentType = "application/json" ∧
      call.msg.CorrelationId = [] ∧ call.msg.ReplyTo = "" ∧ call.msg.Expiration = "" ∧
      call.msg.Body = [108, 111, 103, 104, 105] ∧
      (∀ addr, publishedBodies
          (Example.client.Call Example.marshal Example.pending addr "log" [104, 105]).1.broker =
        publishedBodies
          (Example.client.CallVoid Example.marshal Example.pending "log" [104, 105]).1.broker) ∧
      (Example.client.CallVoid Example.marshal Example.pending "log" [104, 105]).1.heap =
        Example.pending.heap ∧
      (Example.client.channel.Publish Example.pending.broker call = none →
        (Example.client.CallVoid Example.marshal Example.pending "log" [104, 105]).2 = .ok ()) :=
  ⟨rfl, by decide,
   Client.CallVoid_envelope Example.marshal Example.client Example.pending "log" [104, 105]
     [108, 111, 103, 104, 105] rfl⟩

/-- C7, as stated, fails: on a client whose broker channel is closed, `Publish` returns an
error, and both `Call` and `CallVoid` end in a panic carrying that error; neither returns
a failure result to its caller. -/
theorem Client.broken_channel_panics :
    Example.brokenClient.channel.Publish []
      { exchange := "", key := "adder", mandatory := false, immediate := false,
        msg := { Expiration := "", ContentType := "application/json",
                 CorrelationId := [], ReplyTo := "", Body := [108, 111, 103] } }
      = some "channel/connection is not open" ∧
    (Example.brokenClient.Call Example.marshal World.empty 4096 "add" [2, 3]).2 =
      .panic "channel/connection is not open" ∧
    (Example.brokenClient.CallVoid Example.marshal World.empty "log" []).2 =
      .panic "channel/connection is not open" := by
  decide

/-- C7, amended. When serialization succeeds and the broker `Publish` returns an error,
`Call` panics with that error, and so does `CallVoid`: the error reaches the caller as a
panic, no result is returned. -/
theorem Client.publish_failure_panics {V : Type}
    (marshal : MessageBody V → Except String Bytes) (c : Client) (w : World) (addr : Nat)
    (method : String) (args : List V) (body : Bytes)
    (hm : marshal { Method := method, Args := args } = .ok body) :
    (∀ err, c.channel.Publish w.broker
        { exchange := "", key := c.serviceName, mandatory := false, immediate := false,
          msg := { Expiration := FormatInt c.defaultTTL 10,
                   ContentType := "application/json",
                   CorrelationId := getCorrelationID addr,
                   ReplyTo := c.responseQueue.Name,
                   Body := body } } = some err →
      (c.Call marshal w addr method args).2 = .panic err) ∧
    (∀ err, c.channel.Publish w.broker
        { exchange := "", key := c.serviceName, mandatory := false, immediate := false,
          msg := { Expiration := "", ContentType := "application/json",
                   CorrelationId := [], ReplyTo := "", Body := body } } = some err →
      (c.CallVoid marshal w method args).2 = .panic err) := by
  constructor
  · intro err hp
    simp only [Client.Call, hm, Client.makeNewResponse, hp]
  · intro err hp
    simp only [Client.CallVoid, hm, hp]

theorem Client.publish_failure_panics_witness :
    Example.marshal { Method := "add", Args := [2, 3] } = .ok [97, 100, 100, 2, 3] ∧
    (Example.brokenClient.Call Example.marshal World.empty 4096 "add" [2, 3]).2 =
      .panic "channel/connection is not open" ∧
    (Example.brokenClient.CallVoid Example.marshal World.empty "add" [2, 3]).2 =
      .panic "channel/connection is not open" :=
  ⟨rfl,
   (Client.publish_failure_panics Example.marshal Example.brokenClient World.empty 4096
      "add" [2, 3] [97, 100, 100, 2, 3] rfl).1 _ rfl,
   (Client.publish_failure_panics Example.marshal Example.brokenClient World.empty 4096
      "add" [2, 3] [97, 100, 100, 2, 3] rfl).2 _ rfl⟩

/-! ## Correlation tokens of successive calls (C9) -/

theorem Client.Call_ok {V : Type} (marshal : MessageBody V → Except String Bytes)
    (c : Client) (w : World) (addr : Nat) (method : String) (args : List V) (body : Bytes)
    (hm : marshal { Method := method, Args := args } = .ok body) :
    (c.Call marshal w addr method args).1.heap = Function.update w.heap addr (some Response.new)
    ∧ ((c.Call marshal w addr method args).2 = .ok addr ∨
       ∃ err, (c.Call marshal w addr method args).2 = .panic err) := by
  rw [Client.Call_world marshal c w addr method args body hm]
  refine ⟨rfl, ?_⟩
  simp only [Client.Call, hm, Client.makeNewResponse]
  split
  · exact Or.inr ⟨_, rfl⟩
  · exact Or.inl rfl

theorem Client.runSteps_call_ok {V : Type} (marshal : MessageBody V → Except String Bytes)
    (c : Client) (w : World) (addr : Nat) (method : String) (args : List V)
    (rest : List (Step V)) (res : Nat)
    (h : (c.Call marshal w addr method args).2 = .ok res) :
    (c.runSteps marshal w (.call addr method args :: rest)).2 =
      getCorrelationID res ::
        (c.runSteps marshal (c.Call marshal w addr method args).1 rest).2 := by
  simp only [Client.runSteps]
  cases hcall : c.Call marshal w addr method args with
  | mk w1 o =>
    rw [hcall] at h
    simp only at h
    subst h
    rfl

theorem Client.runSteps_call_panic {V : Type} (marshal : MessageBody V → Except String Bytes)
    (c : Client) (w : World) (addr : Nat) (method : String) (args : List V)
    (rest : List (Step V)) (err : String)
    (h : (c.Call marshal w addr method args).2 = .panic err) :
    (c.runSteps marshal w (.call addr method args :: rest)).2 =
      (c.runSteps marshal (c.Call marshal w addr method args).1 rest).2 := by
  simp only [Client.runSteps]
  cases hcall : c.Call marshal w addr method args with
  | mk w1 o =>
    rw [hcall] at h
    simp only at h
    subst h
    rfl

theorem Client.runSteps_addresses {V : Type} (marshal : MessageBody V → Except String Bytes)
    (c : Client) (steps : List (Step V)) :
    ∀ w : World, (∀ s ∈ steps, s.isCall = true) → c.ValidAllocs marshal w steps →
      ∃ addrs : List Nat,
        (c.runSteps marshal w steps).2 = addrs.map getCorrelationID ∧ addrs.Nodup ∧
        ∀ a ∈ addrs, a < 2 ^ 64 ∧ w.heap a = none := by
  induction steps with
  | nil =>
    intro w _ _
    exact ⟨[], rfl, List.nodup_nil, by simp⟩
  | cons st rest ih =>
    intro w hcalls hv
    cases st with
    | collect a =>
      have := hcalls (.collect a) (List.mem_cons_self _ _)
      simp [Step.isCall] at this
    | call addr method args =>
      obtain ⟨⟨-, hlt, hfree⟩, hv1⟩ := hv
      have hrest : ∀ s ∈ rest, s.isCall = true :=
        fun s hs => hcalls s (List.mem_cons_of_mem _ hs)
      obtain ⟨addrs, htok, hnd, hall⟩ := ih _ hrest hv1
      cases hm : marshal { Method := method, Args := args } with
      | error err =>
        have hcall := Client.Call_world_error marshal c w addr method args err hm
        refine ⟨addrs, ?_, hnd, ?_⟩
        · rw [Client.runSteps_call_panic marshal c w addr method args rest err
            (by rw [hcall]), htok]
        · intro a ha
          have := hall a ha
          rw [hcall] at this
          exact this
      | ok body =>
        obtain ⟨hheap, hres⟩ := Client.Call_ok marshal c w addr method args body hm
        have hold : ∀ a ∈ addrs, a ≠ addr ∧ a < 2 ^ 64 ∧ w.heap a = none := by
          intro a ha
          obtain ⟨h1, h2⟩ := hall a ha
          rw [hheap] at h2
          have hne : a ≠ addr := by
            intro he
            subst he
            simp at h2
          rw [Function.update_noteq hne] at h2
          exact ⟨hne, h1, h2⟩
        rcases hres with hok | ⟨err, hpanic⟩
        · refine ⟨addr :: addrs, ?_, ?_, ?_⟩
          · rw [Client.runSteps_call_ok marshal c w addr method args rest addr hok, htok]
            rfl
          · refine List.nodup_cons.mpr ⟨?_, hnd⟩
            intro hmem
            exact (hold addr hmem).1 rfl
          · intro a ha
            rcases List.mem_cons.mp ha with he | hmem
            · subst he
              exact ⟨hlt, hfree⟩
            · exact (hold a hmem).2
        · refine ⟨addrs, ?_, hnd, fun a ha => (hold a ha).2⟩
          rw [Client.runSteps_call_panic marshal c w addr method args rest err hpanic, htok]

/-- C9, as stated, fails: a `Call` returns a Response stored at 4096, the caller drops it and
the collector reclaims it, and the next `Call` is given the same address: the two calls
generate the same correlation token. -/
theorem Client.token_reused_after_collection :
    Example.client.ValidAllocs Example.marshal World.empty
      [.call 4096 "add" [2, 3], .collect 4096, .call 4096 "add" [4, 5]] ∧
    (Example.client.runSteps Example.marshal World.empty
      [.call 4096 "add" [2, 3], .collect 4096, .call 4096 "add" [4, 5]]).2 =
      [[0, 16, 0, 0, 0, 0, 0, 0], [0, 16, 0, 0, 0, 0, 0, 0]] ∧
    ¬ (Example.client.runSteps Example.marshal World.empty
      [.call 4096 "add" [2, 3], .collect 4096, .call 4096 "add" [4, 5]]).2.Nodup := by
  refine ⟨⟨⟨by decide, by decide, by decide⟩, ⟨by decide, by decide, by decide⟩, trivial⟩,
    by decide, by decide⟩

/-- C9, amended. For every sequence of `Call` invocations during which no Response is
reclaimed, each Response being allocated at an address free at that time, the tokens of the
Responses returned are pairwise distinct, and none equals the token of a Response that was
already stored in the heap when the sequence started. -/
theorem Client.tokens_distinct_without_collection {V : Type}
    (marshal : MessageBody V → Except String Bytes) (c : Client) (w : World)
    (steps : List (Step V)) (hw : w.Sound) (hcalls : ∀ s ∈ steps, s.isCall = true)
    (hv : c.ValidAllocs marshal w steps) :
    (c.runSteps marshal w steps).2.Nodup ∧
    ∀ a r, w.heap a = some r → getCorrelationID a ∉ (c.runSteps marshal w steps).2 := by
  obtain ⟨addrs, htok, hnd, hall⟩ := Client.runSteps_addresses marshal c steps w hcalls hv
  rw [htok]
  constructor
  · refine List.Nodup.map_on ?_ hnd
    intro a ha b hb hab
    exact getCorrelationID_injOn a b (hall a ha).1 (hall b hb).1 hab
  · intro a r hr hmem
    obtain ⟨b, hb, hab⟩ := List.mem_map.mp hmem
    have := getCorrelationID_injOn b a (hall b hb).1 (hw a r hr).1 hab
    subst this
    rw [(hall b hb).2] at hr
    simp at hr

theorem Client.tokens_distinct_without_collection_witness :
    Example.pending.Sound ∧
    Example.client.ValidAllocs Example.marshal Example.pending
      [.call 4128 "add" [4, 5], .call 4160 "add" [6, 7]] ∧
    (Example.client.runSteps Example.marshal Example.pending
      [.call 4128 "add" [4, 5], .call 4160 "add" [6, 7]]).2 =
      [[32, 16, 0, 0, 0, 0, 0, 0], [64, 16, 0, 0, 0, 0, 0, 0]] ∧
    (Example.client.runSteps Example.marshal Example.pending
      [.call 4128 "add" [4, 5], .call 4160 "add" [6, 7]]).2.Nodup :=
  ⟨Example.pending_sound,
   ⟨⟨by decide, by decide, by decide⟩, ⟨by decide, by decide, by decide⟩, trivial⟩,
   by decide,
   (Client.tokens_distinct_without_collection Example.marshal Example.client Example.pending
      [.call 4128 "add" [4, 5], .call 4160 "add" [6, 7]] Example.pending_sound
      (by decide)
      ⟨⟨by decide, by decide, by decide⟩, ⟨by decide, by decide, by decide⟩, trivial⟩).1⟩

/-! ## Deliver racing Dispose (C10) -/

theorem Race.init_inv (body : Bytes) (receiver : Bool) : (Race.init body receiver).Inv := by
  simp [Race.Inv, Race.init, Response.new, Chan.make, Chan.isClosed]

set_option maxHeartbeats 4000000 in
theorem Race.stepDeliver_inv (s s1 : Race) (h : s.Inv) (hs : s.stepDeliver = some s1) :
    s1.Inv := by
  obtain ⟨res, body, receiver, dpc, ppc, fault⟩ := s
  obtain ⟨out, closed, ⟨locked⟩⟩ := res
  obtain ⟨sent, closes⟩ := out
  have hf1 : fault = none := h.1
  subst hf1
  cases dpc <;> cases locked <;> cases closed <;> cases closes <;> cases receiver <;>
    simp [Race.stepDeliver, Chan.send, Chan.isClosed] at hs <;>
    subst hs <;>
    cases ppc <;>
    simp_all [Race.Inv, Chan.isClosed]

set_option maxHeartbeats 4000000 in
theorem Race.stepDispose_inv (s s1 : Race) (h : s.Inv) (hs : s.stepDispose = some s1) :
    s1.Inv := by
  obtain ⟨res, body, receiver, dpc, ppc, fault⟩ := s
  obtain ⟨out, closed, ⟨locked⟩⟩ := res
  obtain ⟨sent, closes⟩ := out
  have hf1 : fault = none := h.1
  subst hf1
  cases ppc <;> cases locked <;> cases closed <;> cases closes <;>
    simp [Race.stepDispose, Chan.close, Chan.isClosed] at hs <;>
    subst hs <;>
    cases dpc <;>
    simp_all [Race.Inv, Chan.isClosed]

theorem Race.step_inv (s s1 : Race) (a : Actor) (h : s.Inv) (hs : s.step a = some s1) :
    s1.Inv := by
  have hf : s.fault = none := h.1
  cases a with
  | dispatcher =>
    simp only [Race.step, hf, Option.isSome_none, Bool.false_eq_true, if_false] at hs
    exact Race.stepDeliver_inv s s1 h hs
  | caller =>
    simp only [Race.step, hf, Option.isSome_none, Bool.false_eq_true, if_false] at hs
    exact Race.stepDispose_inv s s1 h hs

theorem Race.run_inv (sched : List Actor) : ∀ s : Race, s.Inv → (s.run sched).Inv := by
  induction sched with
  | nil => intro s h; exact h
  | cons a rest ih =>
    intro s h
    simp only [Race.run]
    cases hs : s.step a with
    | none => exact ih s h
    | some s1 => exact ih s1 (Race.step_inv s s1 a h hs)

/-- In every interleaving of the guarded send and `Dispose` on a Response fresh from
`makeNewResponse`, with or without a receiver, no runtime panic is raised: no payload is
sent on a closed output and the output is not closed twice. -/
theorem Race.no_write_after_close (body : Bytes) (receiver : Bool) (sched : List Actor) :
    ((Race.init body receiver).run sched).fault = none :=
  (Race.run_inv sched _ (Race.init_inv body receiver)).1

theorem Race.stuck_run (s : Race) (h1 : s.step .dispatcher = none)
    (h2 : s.step .caller = none) (sched : List Actor) : s.run sched = s := by
  induction sched with
  | nil => rfl
  | cons a rest ih =>
    cases a with
    | dispatcher => simp only [Race.run, h1, ih]
    | caller => simp only [Race.run, h2, ih]

/-- C10 fails on the code when no goroutine is receiving from `out`: the dispatch loop takes
the mutex, finds the Response open and reaches the send, which cannot complete; from then
on, whatever the schedule, the guarded send stays at the send holding the mutex and
`Dispose` stays at its `Lock`: neither returns. No panic is raised. -/
theorem Race.deadlock_without_receiver (body : Bytes) (rest : List Actor) :
    ((Race.init body false).run (.dispatcher :: .dispatcher :: rest)).deliver = .send ∧
    ((Race.init body false).run (.dispatcher :: .dispatcher :: rest)).dispose = .lock ∧
    ((Race.init body false).run (.dispatcher :: .dispatcher :: rest)).res.mutex.locked = true ∧
    ((Race.init body false).run (.dispatcher :: .dispatcher :: rest)).fault = none := by
  have h2 : (Race.init body false).run (.dispatcher :: .dispatcher :: rest) =
      Race.run { res := { Response.new with mutex := { locked := true } }, body := body,
                 receiver := false, deliver := .send, dispose := .lock, fault := none }
        rest := rfl
  have h3 := Race.stuck_run
    { res := { Response.new with mutex := { locked := true } }, body := body,
      receiver := false, deliver := .send, dispose := .lock, fault := none }
    rfl rfl rest
  rw [h2, h3]
  exact ⟨rfl, rfl, rfl, rfl⟩

end Porthos
